import Mathlib

/-
  Verification development for the adapter utility module (src/ts/utils.ts).

  The module is shallowly embedded: the user-agent version extractor and the
  browser detector become pure Lean functions; the regular expressions that the
  source uses are embedded as executable matchers with JavaScript leftmost-match
  and backtracking semantics; the process-wide logging flags become explicit
  state passing; the peer-connection event wrapper becomes a state machine over
  an explicit instance state, with the patched prototype methods as Lean
  functions built from the native ones exactly as the source builds them.
-/

/-- JS value of type number-or-null as returned by extractVersion: null, NaN,
or an integer value. -/
inductive JSNum where
  | jsNull : JSNum
  | nan : JSNum
  | num : Int → JSNum

deriving instance DecidableEq, Repr for JSNum

/-- Whitespace stripped by JS parseInt before reading digits. -/
def isJsWhitespace (c : Char) : Bool :=
  c = ' ' || c = '\t' || c = '\n' || c = '\r' || c = '\x0b' || c = '\x0c'

/-- Value of a list of decimal digit characters, most significant first. -/
def digitsToNat (ds : List Char) : Nat :=
  ds.foldl (fun a c => 10 * a + (c.toNat - 48)) 0

/-- Reads the longest prefix of decimal digits; NaN when there is none.
This is the digit-reading core of JS parseInt with radix 10. -/
def parseIntFrom (cs : List Char) : JSNum :=
  let ds := cs.takeWhile Char.isDigit
  if ds.isEmpty then JSNum.nan else JSNum.num (Int.ofNat (digitsToNat ds))

/-- JS parseInt(s, 10): strip leading whitespace, read an optional sign, then
the longest digit prefix; trailing characters are ignored. -/
def parseIntList (cs : List Char) : JSNum :=
  match cs.dropWhile isJsWhitespace with
  | '-' :: rest =>
    match parseIntFrom rest with
    | JSNum.num n => JSNum.num (-n)
    | r => r
  | '+' :: rest => parseIntFrom rest
  | rest => parseIntFrom rest

/-- JS parseInt applied to an entry of a regex match array: an out-of-range or
non-participating entry is undefined, which parseInt stringifies to
the text undefined and therefore parses to NaN. -/
def parseIntJS (os : Option String) : JSNum :=
  match os with
  | some s => parseIntList s.data
  | none => parseIntList "undefined".data

/-- JS indexing m[pos] into a match array: undefined past the end. -/
def jsIndex (m : List (Option String)) (pos : Nat) : Option String :=
  (m.get? pos).getD none

/-- A JS RegExp, embedded by its match behaviour: exec returns null on no
match, or the match array (index 0 the full match, then each capture group,
undefined for a group that did not participate). -/
structure RegExp where
  exec : String → Option (List (Option String))

/-- extractVersion from src/ts/utils.ts: match the expression against the
user-agent string; when there is a match whose array length is at least pos,
parseInt the entry at index pos; otherwise return null. -/
def extractVersion (uastring : String) (expr : RegExp) (pos : Nat) : JSNum :=
  match expr.exec uastring with
  | some m => if m.length ≥ pos then parseIntJS (jsIndex m pos) else JSNum.jsNull
  | none => JSNum.jsNull

/-- Leftmost-match search: try the pattern at every suffix, earliest first,
exactly as a JS regex scans its subject. -/
def firstSome {α : Type} (f : List Char → Option α) : List Char → Option α
  | [] => f []
  | c :: cs =>
    match f (c :: cs) with
    | some r => some r
    | none => firstSome f cs

/-- Matcher, at one position, for patterns of the shape LIT(\d+)\. — a
literal, then one or more digits (one capture group), then a literal dot.
Returns the full match text and the captured digits. Backtracking the greedy
digit run can never succeed here because a shorter digit prefix is followed by
a digit, not a dot. -/
def litDigitsDot (lit : List Char) (cs : List Char) : Option (List Char × List Char) :=
  if cs.take lit.length = lit then
    let rest := cs.drop lit.length
    let ds := rest.takeWhile Char.isDigit
    if ds.isEmpty then none
    else
      match rest.drop ds.length with
      | '.' :: _ => some (lit ++ ds ++ ['.'], ds)
      | _ => none
  else none

/-- The regex Firefox\/(\d+)\. used by detectBrowser. -/
def firefoxRe : RegExp :=
  RegExp.mk (fun s =>
    (firstSome (litDigitsDot "Firefox/".data) s.data).map
      (fun p => [some (String.mk p.1), some (String.mk p.2)]))

/-- The regex AppleWebKit\/(\d+)\. used by detectBrowser. -/
def appleWebKitRe : RegExp :=
  RegExp.mk (fun s =>
    (firstSome (litDigitsDot "AppleWebKit/".data) s.data).map
      (fun p => [some (String.mk p.1), some (String.mk p.2)]))

/-- One alternation branch of Chrom(e|ium)\/(\d+)\.: after the literal Chrom,
try the branch text g1, then a slash, digits, and a dot. -/
def chromTail (g1 : List Char) (r : List Char) : Option (List Char × List Char × List Char) :=
  if r.take g1.length = g1 then
    match r.drop g1.length with
    | '/' :: r3 =>
      let ds := r3.takeWhile Char.isDigit
      if ds.isEmpty then none
      else
        match r3.drop ds.length with
        | '.' :: _ => some ("Chrom".data ++ g1 ++ '/' :: (ds ++ ['.']), g1, ds)
        | _ => none
    | _ => none
  else none

/-- Matcher, at one position, for Chrom(e|ium)\/(\d+)\.: the alternation tries
the branch e first, then ium, as JS does left to right. -/
def chromAlt (cs : List Char) : Option (List Char × List Char × List Char) :=
  if cs.take 5 = "Chrom".data then
    let r := cs.drop 5
    match chromTail ['e'] r with
    | some res => some res
    | none => chromTail ['i', 'u', 'm'] r
  else none

/-- The regex Chrom(e|ium)\/(\d+)\. used by detectBrowser: two capture
groups, the alternation text and the digits. -/
def chromeRe : RegExp :=
  RegExp.mk (fun s =>
    (firstSome chromAlt s.data).map
      (fun t => [some (String.mk t.1), some (String.mk t.2.1), some (String.mk t.2.2)]))

/-- Line terminators, which the unescaped dot of a JS regex does not match. -/
def isLineTerm (c : Char) : Bool :=
  c = '\n' || c = '\r' || c = '\u2028' || c = '\u2029'

/-- Backtracking for Edge\/(\d+).(\d+)$ after the literal: the first greedy
digit run gives back one digit at a time (longest first); the unescaped dot
then eats one character, and the anchored second digit run must cover the
whole remainder, which must be nonempty digits. r is the text after the
literal Edge/; the argument k+1 is the group-one length currently tried. -/
def edgeSplit (r : List Char) : Nat → Option (List Char × List Char)
  | 0 => none
  | k + 1 =>
    match r.drop (k + 1) with
    | c :: rest =>
      if !isLineTerm c && !rest.isEmpty && rest.all Char.isDigit then
        some (r.take (k + 1), rest)
      else edgeSplit r k
    | [] => edgeSplit r k

/-- Matcher, at one position, for Edge\/(\d+).(\d+)$ — note the dot between
the groups is unescaped in the source, so it matches any non-terminator
character. The dollar anchors the match to the end of the subject, so the
full match is the whole remaining suffix. -/
def edgeAt (cs : List Char) : Option (List Char × List Char × List Char) :=
  if cs.take 5 = "Edge/".data then
    let r := cs.drop 5
    match edgeSplit r (r.takeWhile Char.isDigit).length with
    | some (g1, g2) => some ("Edge/".data ++ r, g1, g2)
    | none => none
  else none

/-- The regex Edge\/(\d+).(\d+)$ used by detectBrowser. -/
def edgeRe : RegExp :=
  RegExp.mk (fun s =>
    (firstSome edgeAt s.data).map
      (fun t => [some (String.mk t.1), some (String.mk t.2.1), some (String.mk t.2.2)]))

/-- The navigator-like object detectBrowser inspects: the three capability
markers (modelled by their truthiness) and the user-agent string. -/
structure Navigator where
  mozGetUserMedia : Bool
  webkitGetUserMedia : Bool
  mediaDevices : Bool
  userAgent : String

deriving instance DecidableEq, Repr for Navigator

/-- The runtime context of detectBrowser: an optional navigator-like object
and the global peer-connection constructor marker. -/
structure Window where
  navigator : Option Navigator
  hasRTCPeerConnection : Bool

deriving instance DecidableEq, Repr for Window

/-- The result record of detectBrowser: the source initialises both fields to
null and assigns browser (and usually version) on each branch. -/
structure BrowserResult where
  browser : Option String
  version : JSNum

deriving instance DecidableEq, Repr for BrowserResult

/-- detectBrowser from src/ts/utils.ts. An absent runtime context or an
absent navigator-like object fails early; then the four vendor branches are
tried in source order; the fallthrough reports an unsupported browser. -/
def detectBrowser (w : Option Window) : BrowserResult :=
  match w with
  | none => BrowserResult.mk (some "Not a browser.") JSNum.jsNull
  | some win =>
    match win.navigator with
    | none => BrowserResult.mk (some "Not a browser.") JSNum.jsNull
    | some nav =>
      if nav.mozGetUserMedia then
        BrowserResult.mk (some "firefox") (extractVersion nav.userAgent firefoxRe 1)
      else if nav.webkitGetUserMedia then
        BrowserResult.mk (some "chrome") (extractVersion nav.userAgent chromeRe 2)
      else if nav.mediaDevices && (edgeRe.exec nav.userAgent).isSome then
        BrowserResult.mk (some "edge") (extractVersion nav.userAgent edgeRe 2)
      else if win.hasRTCPeerConnection && (appleWebKitRe.exec nav.userAgent).isSome then
        BrowserResult.mk (some "safari") (extractVersion nav.userAgent appleWebKitRe 1)
      else
        BrowserResult.mk (some "Not a supported browser.") JSNum.jsNull


/-- A JS argument value as classified by the typeof checks in the setters. -/
inductive JSArg where
  | boolean : Bool → JSArg
  | number : Int → JSArg
  | str : String → JSArg
  | undef : JSArg
  | jsNull : JSArg
  | object : JSArg
  | function : JSArg

deriving instance DecidableEq, Repr for JSArg

/-- The JS typeof operator on the modelled argument values. -/
def typeofArg : JSArg → String
  | JSArg.boolean _ => "boolean"
  | JSArg.number _ => "number"
  | JSArg.str _ => "string"
  | JSArg.undef => "undefined"
  | JSArg.jsNull => "object"
  | JSArg.object => "object"
  | JSArg.function => "function"

/-- What a setter returns: an Error object returned as a value, or the
confirmation string. -/
inductive SetterResult where
  | errVal : String → SetterResult
  | confirm : String → SetterResult

deriving instance DecidableEq, Repr for SetterResult

/-- The two module-level flags of src/ts/utils.ts, threaded explicitly. -/
structure Flags where
  logDisabled : Bool
  deprecationWarnings : Bool

deriving instance DecidableEq, Repr for Flags

/-- Initial module state: logging disabled, deprecation warnings on. -/
def initFlags : Flags := Flags.mk true true

/-- disableLog from src/ts/utils.ts: a non-boolean argument returns an Error
value naming the received type and leaves the state alone; a boolean is
stored and a confirmation string returned. -/
def disableLog (st : Flags) (v : JSArg) : Flags × SetterResult :=
  match v with
  | JSArg.boolean b =>
    (Flags.mk b st.deprecationWarnings,
      SetterResult.confirm
        (if b then "adapter.js logging disabled" else "adapter.js logging enabled"))
  | _ =>
    (st, SetterResult.errVal
      ("Argument type: " ++ typeofArg v ++ ". Please use a boolean."))

/-- disableWarnings from src/ts/utils.ts: same argument check; stores the
negation of the given boolean into the deprecationWarnings flag. -/
def disableWarnings (st : Flags) (v : JSArg) : Flags × SetterResult :=
  match v with
  | JSArg.boolean b =>
    (Flags.mk st.logDisabled (!b),
      SetterResult.confirm
        ("adapter.js deprecation warnings " ++ (if b then "disabled" else "enabled")))
  | _ =>
    (st, SetterResult.errVal
      ("Argument type: " ++ typeofArg v ++ ". Please use a boolean."))

/-- deprecated from src/ts/utils.ts: the list of warning-channel messages the
call emits (empty when deprecationWarnings is off, one message otherwise). -/
def deprecated (st : Flags) (oldMethod newMethod : String) : List String :=
  if !st.deprecationWarnings then []
  else [oldMethod ++ " is deprecated, please use " ++ newMethod ++ " instead."]

/-- A callback value as seen by the patched event machinery: an application
callback with its identity, or a wrapped closure created by the patched
add-listener (uid makes each created closure a distinct value, as each JS
closure is; inner is the callback it wraps). The transform captured by the
closure is supplied at delivery time, see invoke. -/
inductive CB where
  | app : Nat → CB
  | wrapped : Nat → CB → CB

deriving instance DecidableEq, Repr for CB

/-- Lookup in the eventMap object (keyed by the callback). -/
def mapLook : List (CB × CB) → CB → Option CB
  | [], _ => none
  | (a, b) :: rest, k => if a = k then some b else mapLook rest k

/-- Property assignment on the eventMap object: overwrite the entry for an
existing key in place, otherwise append a new entry. -/
def mapInsert : List (CB × CB) → CB → CB → List (CB × CB)
  | [], k, v => [(k, v)]
  | (a, b) :: rest, k, v =>
    if a = k then (k, v) :: rest else (a, b) :: mapInsert rest k v

/-- The JS delete operator on the eventMap object: drop the entry of a key. -/
def mapErase : List (CB × CB) → CB → List (CB × CB)
  | [], _ => []
  | (a, b) :: rest, k =>
    if a = k then mapErase rest k else (a, b) :: mapErase rest k

/-- Does the native listener list already hold this (event, callback) pair
(the DOM add-listener deduplicates on it). -/
def hasListener : List (String × CB) → String × CB → Bool
  | [], _ => false
  | l :: rest, t => if l = t then true else hasListener rest t

/-- The native remove-listener drops the registered (event, callback) pair. -/
def remListeners : List (String × CB) → String × CB → List (String × CB)
  | [], _ => []
  | l :: rest, t =>
    if l = t then remListeners rest t else l :: remListeners rest t

/-- State of one patched peer-connection instance: the listener list of the
underlying native event source, the lazily grown eventMap of the patch, the
hidden single-handler field the patched property accessor stores into, the
native single-handler slot, a counter making each created closure fresh, and
the log of application-callback invocations (callback identity, delivered
value) observed so far. -/
structure PCState where
  listeners : List (String × CB)
  eventMap : List (CB × CB)
  onField : Option CB
  nativeOn : Option CB
  nextUid : Nat
  calls : List (Nat × Nat)

deriving instance DecidableEq, Repr for PCState

/-- A fresh instance: nothing registered, no eventMap entries, no handler. -/
def initPC : PCState :=
  PCState.mk [] [] none none 0 []

/-- The three patchable members of the peer-connection prototype, as
state transformers over an instance. -/
structure PCProto where
  addEventListener : PCState → String → CB → PCState
  removeEventListener : PCState → String → CB → PCState
  setOn : PCState → Option CB → PCState
  getOn : PCState → Option CB

/-- The native prototype: add-listener appends unless the pair is already
registered, remove-listener drops the pair, and the single-handler property
reads and writes the native slot. -/
def nativeProto : PCProto :=
  PCProto.mk
    (fun s n cb =>
      if hasListener s.listeners (n, cb) then s
      else PCState.mk (s.listeners ++ [(n, cb)]) s.eventMap s.onField s.nativeOn
        s.nextUid s.calls)
    (fun s n cb =>
      PCState.mk (remListeners s.listeners (n, cb)) s.eventMap s.onField s.nativeOn
        s.nextUid s.calls)
    (fun s cb =>
      PCState.mk s.listeners s.eventMap s.onField cb s.nextUid s.calls)
    (fun s => s.nativeOn)

/-- The patched add-listener of wrapPeerConnectionEvent: registrations for
any other event name pass through to the original; for the wrapped name it
creates a fresh wrapped closure, records it in the eventMap under the
application callback, and delegates to the original with the wrapped
closure. -/
def patchedAdd (orig : PCProto) (W : String) (s : PCState) (n : String) (cb : CB) : PCState :=
  if n ≠ W then orig.addEventListener s n cb
  else
    let wrappedCallback := CB.wrapped s.nextUid cb
    let s1 := PCState.mk s.listeners (mapInsert s.eventMap cb wrappedCallback)
      s.onField s.nativeOn (s.nextUid + 1) s.calls
    orig.addEventListener s1 n wrappedCallback

/-- The patched remove-listener of wrapPeerConnectionEvent: for the wrapped
name with an eventMap entry for the callback, delete the entry and delegate
to the original with the wrapped closure; every other case passes through. -/
def patchedRemove (orig : PCProto) (W : String) (s : PCState) (n : String) (cb : CB) : PCState :=
  match mapLook s.eventMap cb with
  | some wrappedCb =>
    if n = W then
      orig.removeEventListener
        (PCState.mk s.listeners (mapErase s.eventMap cb) s.onField s.nativeOn
          s.nextUid s.calls) n wrappedCb
    else orig.removeEventListener s n cb
  | none => orig.removeEventListener s n cb

/-- The patched single-handler setter of wrapPeerConnectionEvent: when a
previous handler is stored it is first unregistered through the patched
remove-listener and the field deleted; a truthy new value is stored into the
field and registered through the patched add-listener. -/
def patchedSetOn (orig : PCProto) (W : String) (s : PCState) (cb : Option CB) : PCState :=
  let s1 :=
    match s.onField with
    | some prev =>
      let s2 := patchedRemove orig W s W prev
      PCState.mk s2.listeners s2.eventMap none s2.nativeOn s2.nextUid s2.calls
    | none => s
  match cb with
  | some c =>
    patchedAdd orig W
      (PCState.mk s1.listeners s1.eventMap (some c) s1.nativeOn s1.nextUid s1.calls)
      W c
  | none => s1

/-- The prototype after wrapPeerConnectionEvent patched it for event W. -/
def patchProto (orig : PCProto) (W : String) : PCProto :=
  PCProto.mk (patchedAdd orig W) (patchedRemove orig W) (patchedSetOn orig W)
    (fun s => s.onField)

/-- The runtime context wrapPeerConnectionEvent receives: the prototype of
the peer-connection constructor, when the constructor exists at all. -/
structure WrapWindow where
  rtcProto : Option PCProto

/-- wrapPeerConnectionEvent from src/ts/utils.ts: without a peer-connection
constructor it returns at once; otherwise it replaces the three prototype
members with the patched ones. The wrapper transform is applied when a
wrapped closure is invoked (see invoke), so the prototype model does not
store the function itself. -/
def wrapPeerConnectionEvent (w : WrapWindow) (W : String) (wrapper : Nat → Nat) : WrapWindow :=
  match w.rtcProto with
  | none => w
  | some proto => WrapWindow.mk (some (patchProto proto W))

/-- Invoking a callback with a raw event value: an application callback is
called with the value itself; a wrapped closure calls the callback it wraps
with the transformed value. The result is the application-callback
invocation this produces. -/
def invoke (T : Nat → Nat) : CB → Nat → Nat × Nat
  | CB.app i, e => (i, e)
  | CB.wrapped _ c, e => invoke T c (T e)

/-- Delivery of one raw event by the native source: each listener registered
for the event name is invoked in registration order. -/
def deliver (T : Nat → Nat) (n : String) : List (String × CB) → Nat → List (Nat × Nat)
  | [], _ => []
  | (m, cb) :: rest, e =>
    if m = n then invoke T cb e :: deliver T n rest e else deliver T n rest e

/-- Delivering a raw event to an instance appends the resulting
application-callback invocations to the call log. -/
def dispatchEvent (T : Nat → Nat) (s : PCState) (n : String) (e : Nat) : PCState :=
  PCState.mk s.listeners s.eventMap s.onField s.nativeOn s.nextUid
    (s.calls ++ deliver T n s.listeners e)

/-- The operations an application (or the event source) can perform on one
patched instance. -/
inductive Op where
  | add : String → CB → Op
  | rem : String → CB → Op
  | setOn : Option CB → Op
  | fire : String → Nat → Op

/-- One operation against the given prototype, with transform T applied at
delivery time. -/
def stepOp (proto : PCProto) (T : Nat → Nat) (s : PCState) : Op → PCState
  | Op.add n cb => proto.addEventListener s n cb
  | Op.rem n cb => proto.removeEventListener s n cb
  | Op.setOn cb => proto.setOn s cb
  | Op.fire n e => dispatchEvent T s n e

/-- Running a sequence of operations on a fresh instance whose prototype was
patched for event W with transform T. -/
def runOps (W : String) (T : Nat → Nat) (ops : List Op) : PCState :=
  ops.foldl (stepOp (patchProto nativeProto W) T) initPC

/-- Running a sequence of single-handler property assignments on a fresh
patched instance. -/
def runSetOn (W : String) (T : Nat → Nat) (vals : List (Option CB)) : PCState :=
  runOps W T (vals.map Op.setOn)

/-- The keys currently present in the eventMap of an instance. -/
def eventMapKeys (s : PCState) : List CB :=
  s.eventMap.map Prod.fst

/-- The single-handler invariant: the stored handler field, the eventMap and
the native listener list agree — no handler means nothing registered, a
stored handler means exactly one wrapped registration for it. -/
def OnInv (W : String) (s : PCState) : Prop :=
  match s.onField with
  | none => s.listeners = [] ∧ s.eventMap = []
  | some h => ∃ u, s.listeners = [(W, CB.wrapped u h)] ∧ s.eventMap = [(h, CB.wrapped u h)]

theorem nativeAdd_eventMap (s : PCState) (n : String) (cb : CB) :
    (nativeProto.addEventListener s n cb).eventMap = s.eventMap := by
  by_cases h : hasListener s.listeners (n, cb) <;> simp [nativeProto, h]

theorem nativeAdd_onField (s : PCState) (n : String) (cb : CB) :
    (nativeProto.addEventListener s n cb).onField = s.onField := by
  by_cases h : hasListener s.listeners (n, cb) <;> simp [nativeProto, h]

theorem nativeRemove_eventMap (s : PCState) (n : String) (cb : CB) :
    (nativeProto.removeEventListener s n cb).eventMap = s.eventMap := rfl

theorem nativeRemove_onField (s : PCState) (n : String) (cb : CB) :
    (nativeProto.removeEventListener s n cb).onField = s.onField := rfl

theorem mapLook_mapErase (m : List (CB × CB)) (k : CB) :
    mapLook (mapErase m k) k = none := by
  induction m with
  | nil => rfl
  | cons p rest ih =>
    obtain ⟨a, b⟩ := p
    by_cases h : a = k <;> simp [mapErase, mapLook, h, ih]

theorem mapInsert_keys_mem {m : List (CB × CB)} {k v x : CB}
    (h : x ∈ (mapInsert m k v).map Prod.fst) : x = k ∨ x ∈ m.map Prod.fst := by
  induction m with
  | nil =>
    simp only [mapInsert, List.map_cons, List.map_nil, List.mem_cons,
      List.not_mem_nil, or_false] at h
    exact Or.inl h
  | cons p rest ih =>
    obtain ⟨a, b⟩ := p
    simp only [List.map_cons, List.mem_cons]
    by_cases hak : a = k
    · simp only [mapInsert, if_pos hak, List.map_cons, List.mem_cons] at h
      rcases h with h | h
      · exact Or.inl h
      · exact Or.inr (Or.inr h)
    · simp only [mapInsert, if_neg hak, List.map_cons, List.mem_cons] at h
      rcases h with h | h
      · exact Or.inr (Or.inl h)
      · rcases ih h with h1 | h1
        · exact Or.inl h1
        · exact Or.inr (Or.inr h1)

theorem mapInsert_keys_nodup {m : List (CB × CB)} {k v : CB}
    (h : (m.map Prod.fst).Nodup) : ((mapInsert m k v).map Prod.fst).Nodup := by
  induction m with
  | nil => simp [mapInsert]
  | cons p rest ih =>
    obtain ⟨a, b⟩ := p
    simp only [List.map_cons, List.nodup_cons] at h
    by_cases hak : a = k
    · subst hak
      simpa [mapInsert] using h
    · simp only [mapInsert, hak, if_false, List.map_cons, List.nodup_cons]
      refine ⟨fun hmem => ?_, ih h.2⟩
      rcases mapInsert_keys_mem hmem with h1 | h1
      · exact hak h1
      · exact h.1 h1

theorem mapErase_keys_sublist (m : List (CB × CB)) (k : CB) :
    ((mapErase m k).map Prod.fst).Sublist (m.map Prod.fst) := by
  induction m with
  | nil => simp [mapErase]
  | cons p rest ih =>
    obtain ⟨a, b⟩ := p
    by_cases h : a = k
    · simpa [mapErase, h] using ih.cons a
    · simpa [mapErase, h] using ih.cons₂ a

theorem patchedAdd_eventMap_nodup (W : String) (s : PCState) (n : String) (cb : CB)
    (h : (eventMapKeys s).Nodup) : (eventMapKeys (patchedAdd nativeProto W s n cb)).Nodup := by
  by_cases hn : n = W
  · subst hn
    simp only [patchedAdd, ne_eq, not_true_eq_false, if_false, eventMapKeys] at *
    rw [nativeAdd_eventMap]
    exact mapInsert_keys_nodup h
  · simp only [patchedAdd, ne_eq, hn, not_false_eq_true, if_true, eventMapKeys] at *
    rw [nativeAdd_eventMap]
    exact h

theorem patchedRemove_eventMap_nodup (W : String) (s : PCState) (n : String) (cb : CB)
    (h : (eventMapKeys s).Nodup) : (eventMapKeys (patchedRemove nativeProto W s n cb)).Nodup := by
  unfold patchedRemove
  cases hm : mapLook s.eventMap cb with
  | none => simpa [eventMapKeys, nativeRemove_eventMap] using h
  | some w =>
    by_cases hn : n = W
    · simp only [hn, if_true, eventMapKeys]
      rw [nativeRemove_eventMap]
      exact ((mapErase_keys_sublist s.eventMap cb).nodup h)
    · simpa [hn, eventMapKeys, nativeRemove_eventMap] using h

theorem patchedSetOn_eventMap_nodup (W : String) (s : PCState) (v : Option CB)
    (h : (eventMapKeys s).Nodup) : (eventMapKeys (patchedSetOn nativeProto W s v)).Nodup := by
  unfold patchedSetOn
  cases ho : s.onField with
  | none =>
    cases v with
    | none => exact h
    | some c => exact patchedAdd_eventMap_nodup W _ W c h
  | some prev =>
    have h1 : (eventMapKeys (patchedRemove nativeProto W s W prev)).Nodup :=
      patchedRemove_eventMap_nodup W s W prev h
    cases v with
    | none => exact h1
    | some c => exact patchedAdd_eventMap_nodup W _ W c h1

theorem stepOp_eventMap_nodup (W : String) (T : Nat → Nat) (s : PCState) (op : Op)
    (h : (eventMapKeys s).Nodup) :
    (eventMapKeys (stepOp (patchProto nativeProto W) T s op)).Nodup := by
  cases op with
  | add n cb => exact patchedAdd_eventMap_nodup W s n cb h
  | rem n cb => exact patchedRemove_eventMap_nodup W s n cb h
  | setOn v => exact patchedSetOn_eventMap_nodup W s v h
  | fire n e => simpa [stepOp, dispatchEvent, eventMapKeys] using h

theorem runOps_eventMap_nodup (W : String) (T : Nat → Nat) (ops : List Op) :
    (eventMapKeys (runOps W T ops)).Nodup := by
  have aux : ∀ (l : List Op) (s : PCState), (eventMapKeys s).Nodup →
      (eventMapKeys (l.foldl (stepOp (patchProto nativeProto W) T) s)).Nodup := by
    intro l
    induction l with
    | nil => intro s h; exact h
    | cons op rest ih =>
      intro s h
      exact ih _ (stepOp_eventMap_nodup W T s op h)
  exact aux ops initPC (by simp [initPC, eventMapKeys])

theorem patchedAdd_onField (W : String) (s : PCState) (n : String) (cb : CB) :
    (patchedAdd nativeProto W s n cb).onField = s.onField := by
  by_cases hn : n = W
  · subst hn
    simp only [patchedAdd, ne_eq, not_true_eq_false, if_false]
    rw [nativeAdd_onField]
  · simp only [patchedAdd, ne_eq, hn, not_false_eq_true, if_true]
    rw [nativeAdd_onField]

theorem patchedRemove_onField (W : String) (s : PCState) (n : String) (cb : CB) :
    (patchedRemove nativeProto W s n cb).onField = s.onField := by
  unfold patchedRemove
  cases hm : mapLook s.eventMap cb with
  | none => rfl
  | some w => by_cases hn : n = W <;> simp [hn, nativeProto]

theorem patchedSetOn_onField (W : String) (s : PCState) (v : Option CB) :
    (patchedSetOn nativeProto W s v).onField = v := by
  unfold patchedSetOn
  cases ho : s.onField with
  | none =>
    cases v with
    | none => exact ho
    | some c => exact patchedAdd_onField W _ W c
  | some prev =>
    cases v with
    | none => rfl
    | some c => exact patchedAdd_onField W _ W c

theorem patchedAdd_on_empty (W : String) (em : List (CB × CB)) (onF nOn : Option CB)
    (uid : Nat) (cs : List (Nat × Nat)) (c : CB) :
    patchedAdd nativeProto W (PCState.mk [] em onF nOn uid cs) W c =
      PCState.mk [(W, CB.wrapped uid c)] (mapInsert em c (CB.wrapped uid c)) onF nOn
        (uid + 1) cs := by
  simp [patchedAdd, nativeProto, hasListener]

theorem patchedRemove_single (W : String) (hcb : CB) (u : Nat) (onF nOn : Option CB)
    (uid : Nat) (cs : List (Nat × Nat)) :
    patchedRemove nativeProto W
      (PCState.mk [(W, CB.wrapped u hcb)] [(hcb, CB.wrapped u hcb)] onF nOn uid cs) W hcb =
      PCState.mk [] [] onF nOn uid cs := by
  simp [patchedRemove, mapLook, mapErase, nativeProto, remListeners]

theorem setOn_preserves_OnInv (W : String) (s : PCState) (v : Option CB)
    (h : OnInv W s) : OnInv W (patchedSetOn nativeProto W s v) := by
  obtain ⟨ls, em, onF, nOn, uid, cs⟩ := s
  cases onF with
  | none =>
    obtain ⟨hl, he⟩ : ls = [] ∧ em = [] := h
    subst hl
    subst he
    cases v with
    | none => exact ⟨rfl, rfl⟩
    | some c =>
      show OnInv W (patchedAdd nativeProto W (PCState.mk [] [] (some c) nOn uid cs) W c)
      rw [patchedAdd_on_empty]
      exact ⟨uid, rfl, rfl⟩
  | some hcb =>
    obtain ⟨u, hl, he⟩ :
        ∃ u, ls = [(W, CB.wrapped u hcb)] ∧ em = [(hcb, CB.wrapped u hcb)] := h
    subst hl
    subst he
    cases v with
    | none =>
      unfold patchedSetOn
      dsimp only
      rw [patchedRemove_single]
      exact ⟨rfl, rfl⟩
    | some c =>
      unfold patchedSetOn
      dsimp only
      rw [patchedRemove_single]
      rw [patchedAdd_on_empty]
      exact ⟨uid, rfl, rfl⟩

theorem runOps_append (W : String) (T : Nat → Nat) (l1 l2 : List Op) :
    runOps W T (l1 ++ l2) = l2.foldl (stepOp (patchProto nativeProto W) T) (runOps W T l1) := by
  simp [runOps, List.foldl_append]

theorem runSetOn_append_one (W : String) (T : Nat → Nat) (vals : List (Option CB)) (v : Option CB) :
    runSetOn W T (vals ++ [v]) = patchedSetOn nativeProto W (runSetOn W T vals) v := by
  simp [runSetOn, runOps, List.foldl_append, stepOp, patchProto]

theorem runSetOn_OnInv (W : String) (T : Nat → Nat) (vals : List (Option CB)) :
    OnInv W (runSetOn W T vals) := by
  have aux : ∀ (l : List (Option CB)) (s : PCState), OnInv W s →
      OnInv W (l.foldl (fun s v => stepOp (patchProto nativeProto W) T s (Op.setOn v)) s) := by
    intro l
    induction l with
    | nil => intro s h; exact h
    | cons v vs ih =>
      intro s h
      exact ih _ (by simpa [stepOp, patchProto] using setOn_preserves_OnInv W s v h)
  have base : OnInv W initPC := ⟨rfl, rfl⟩
  simpa [runSetOn, runOps, List.foldl_map] using aux vals initPC base

/-- C1 (amended): for every text, pattern and 1-based index pos, extractVersion
returns null when the pattern does not match or when the match array length
(one more than the captured-group count) is smaller than pos; otherwise it
returns JS parseInt of the match entry at index pos, which is the captured
integer when that entry is a digit string and NaN when the index is past the
captured groups; in particular the Firefox example yields 91. -/
theorem extractVersion_spec (uastring : String) (expr : RegExp) (pos : Nat) :
    (expr.exec uastring = none → extractVersion uastring expr pos = JSNum.jsNull)
    ∧ (∀ m, expr.exec uastring = some m → m.length < pos →
        extractVersion uastring expr pos = JSNum.jsNull)
    ∧ (∀ m, expr.exec uastring = some m → pos ≤ m.length →
        extractVersion uastring expr pos = parseIntJS (jsIndex m pos))
    ∧ extractVersion "Firefox/91.0" firefoxRe 1 = JSNum.num 91 := by
  refine ⟨?_, ?_, ?_, by decide⟩
  · intro h
    unfold extractVersion
    rw [h]
  · intro m hm hlt
    unfold extractVersion
    rw [hm]
    dsimp only
    rw [if_neg (by omega)]
  · intro m hm hle
    unfold extractVersion
    rw [hm]
    dsimp only
    rw [if_pos hle]

/-- C1 witness: the third branch of the amended statement applied to the
Firefox example, with the match array and the parse result computed. -/
theorem extractVersion_spec_witness :
    firefoxRe.exec "Firefox/91.0" = some [some "Firefox/91.", some "91"]
    ∧ (1 : Nat) ≤ 2
    ∧ extractVersion "Firefox/91.0" firefoxRe 1
        = parseIntJS (jsIndex [some "Firefox/91.", some "91"] 1)
    ∧ parseIntJS (jsIndex [some "Firefox/91.", some "91"] 1) = JSNum.num 91 :=
  ⟨by decide, by decide,
    (extractVersion_spec "Firefox/91.0" firefoxRe 1).2.2.1
      [some "Firefox/91.", some "91"] (by decide) (by decide),
    by decide⟩

/-- C1 counterexample: at text Firefox/91.0, the one-group Firefox pattern and
pos = 2 the captured-group count (1, the match array has the full match plus
one group) is smaller than pos, so the claim demands the absent value; the
code compares the match array length 2 against pos and parses the undefined
entry at index 2, returning NaN, which is not the absent value null. -/
theorem extractVersion_claim_false :
    firefoxRe.exec "Firefox/91.0" = some [some "Firefox/91.", some "91"]
    ∧ extractVersion "Firefox/91.0" firefoxRe 2 = JSNum.nan
    ∧ extractVersion "Firefox/91.0" firefoxRe 2 ≠ JSNum.jsNull := by
  exact ⟨by decide, by decide, by decide⟩

/-- C2: detectBrowser is a total function — every input yields a complete
record with the browser field set — and an absent runtime context or an
absent navigator-like object yields the not-a-browser record with a null
version. -/
theorem detectBrowser_total (w : Option Window) :
    ((detectBrowser w).browser).isSome = true
    ∧ detectBrowser none = BrowserResult.mk (some "Not a browser.") JSNum.jsNull
    ∧ (∀ win : Window, win.navigator = none →
        detectBrowser (some win) = BrowserResult.mk (some "Not a browser.") JSNum.jsNull) := by
  refine ⟨?_, rfl, ?_⟩
  · cases w with
    | none => rfl
    | some win =>
      obtain ⟨onav, rtc⟩ := win
      cases onav with
      | none => rfl
      | some nav =>
        unfold detectBrowser
        dsimp only
        split_ifs <;> rfl
  · intro win h
    obtain ⟨onav, rtc⟩ := win
    cases onav with
    | none => rfl
    | some nav => simp at h

/-- C2 witness: a context whose navigator-like object is absent. -/
theorem detectBrowser_total_witness :
    ((detectBrowser (some (Window.mk none true))).browser).isSome = true
    ∧ (Window.mk none true).navigator = none
    ∧ detectBrowser (some (Window.mk none true))
        = BrowserResult.mk (some "Not a browser.") JSNum.jsNull :=
  ⟨(detectBrowser_total (some (Window.mk none true))).1, rfl,
    (detectBrowser_total (some (Window.mk none true))).2.2 (Window.mk none true) rfl⟩

/-- C3: the detection branches apply in source order with first match
winning — mozGetUserMedia yields firefox regardless of the other markers,
then webkitGetUserMedia yields chrome, then mediaDevices with an Edge
user-agent match yields edge, then the peer-connection constructor with an
AppleWebKit match yields safari, and otherwise the unsupported-browser
record is returned — with the versions extracted by the stated pattern and
group in each branch. -/
theorem detectBrowser_branch_order (win : Window) (nav : Navigator)
    (hnav : win.navigator = some nav) :
    (nav.mozGetUserMedia = true →
      detectBrowser (some win)
        = BrowserResult.mk (some "firefox") (extractVersion nav.userAgent firefoxRe 1))
    ∧ (nav.mozGetUserMedia = false → nav.webkitGetUserMedia = true →
      detectBrowser (some win)
        = BrowserResult.mk (some "chrome") (extractVersion nav.userAgent chromeRe 2))
    ∧ (nav.mozGetUserMedia = false → nav.webkitGetUserMedia = false →
      (nav.mediaDevices && (edgeRe.exec nav.userAgent).isSome) = true →
      detectBrowser (some win)
        = BrowserResult.mk (some "edge") (extractVersion nav.userAgent edgeRe 2))
    ∧ (nav.mozGetUserMedia = false → nav.webkitGetUserMedia = false →
      (nav.mediaDevices && (edgeRe.exec nav.userAgent).isSome) = false →
      (win.hasRTCPeerConnection && (appleWebKitRe.exec nav.userAgent).isSome) = true →
      detectBrowser (some win)
        = BrowserResult.mk (some "safari") (extractVersion nav.userAgent appleWebKitRe 1))
    ∧ (nav.mozGetUserMedia = false → nav.webkitGetUserMedia = false →
      (nav.mediaDevices && (edgeRe.exec nav.userAgent).isSome) = false →
      (win.hasRTCPeerConnection && (appleWebKitRe.exec nav.userAgent).isSome) = false →
      detectBrowser (some win)
        = BrowserResult.mk (some "Not a supported browser.") JSNum.jsNull) := by
  refine ⟨?_, ?_, ?_, ?_, ?_⟩
  · intro h1
    simp [detectBrowser, hnav, h1]
  · intro h1 h2
    simp [detectBrowser, hnav, h1, h2]
  · intro h1 h2 h3
    simp [detectBrowser, hnav, h1, h2, h3]
  · intro h1 h2 h3 h4
    simp [detectBrowser, hnav, h1, h2, h3, h4]
  · intro h1 h2 h3 h4
    simp [detectBrowser, hnav, h1, h2, h3, h4]

/-- C3 witness: a chrome-marked navigator takes the second branch and the
Chrom(e|ium) pattern yields version 92 from group 2. -/
theorem detectBrowser_branch_order_witness :
    (Window.mk (some (Navigator.mk false true false "Chrome/92.0.")) false).navigator
      = some (Navigator.mk false true false "Chrome/92.0.")
    ∧ detectBrowser (some (Window.mk (some (Navigator.mk false true false "Chrome/92.0.")) false))
        = BrowserResult.mk (some "chrome") (extractVersion "Chrome/92.0." chromeRe 2)
    ∧ extractVersion "Chrome/92.0." chromeRe 2 = JSNum.num 92 :=
  ⟨rfl,
    (detectBrowser_branch_order (Window.mk (some (Navigator.mk false true false "Chrome/92.0.")) false)
      (Navigator.mk false true false "Chrome/92.0.") rfl).2.1 rfl rfl,
    by decide⟩

/-- C4: on a freshly patched instance, registering an application callback
for the wrapped event and delivering a raw event invokes the callback exactly
once with the transformed event; after unregistering it through the patched
remove-listener, re-delivery invokes it zero additional times; and
registrations and removals for any other event name pass through to the
original methods unmodified. -/
theorem wrapEvent_transform_once (W : String) (T : Nat → Nat) (f e : Nat)
    (n : String) (hn : n ≠ W) (cb : CB) (s : PCState) :
    (runOps W T [Op.add W (CB.app f), Op.fire W e]).calls = [(f, T e)]
    ∧ (runOps W T [Op.add W (CB.app f), Op.fire W e,
        Op.rem W (CB.app f), Op.fire W e]).calls = [(f, T e)]
    ∧ stepOp (patchProto nativeProto W) T s (Op.add n cb)
        = nativeProto.addEventListener s n cb
    ∧ stepOp (patchProto nativeProto W) T s (Op.rem n cb)
        = nativeProto.removeEventListener s n cb := by
  refine ⟨?_, ?_, ?_, ?_⟩
  · simp [runOps, stepOp, patchProto, patchedAdd, nativeProto, initPC, mapInsert,
      hasListener, dispatchEvent, deliver, invoke]
  · simp [runOps, stepOp, patchProto, patchedAdd, patchedRemove, nativeProto, initPC,
      mapInsert, mapLook, mapErase, hasListener, remListeners, dispatchEvent, deliver,
      invoke]
  · simp [stepOp, patchProto, patchedAdd, hn]
  · cases hm : mapLook s.eventMap cb with
    | none => simp [stepOp, patchProto, patchedRemove, hm]
    | some w => simp [stepOp, patchProto, patchedRemove, hm, hn]

/-- C4 witness: wrapping event track with the successor transform, callback 0
receives 8 for the raw event 7, exactly once, and none after removal; a
registration for another event name passes through. -/
theorem wrapEvent_transform_once_witness :
    ("open" ≠ "track")
    ∧ ((runOps "track" Nat.succ [Op.add "track" (CB.app 0), Op.fire "track" 7]).calls
        = [(0, Nat.succ 7)]
    ∧ (runOps "track" Nat.succ [Op.add "track" (CB.app 0), Op.fire "track" 7,
        Op.rem "track" (CB.app 0), Op.fire "track" 7]).calls = [(0, Nat.succ 7)]
    ∧ stepOp (patchProto nativeProto "track") Nat.succ initPC (Op.add "open" (CB.app 1))
        = nativeProto.addEventListener initPC "open" (CB.app 1)
    ∧ stepOp (patchProto nativeProto "track") Nat.succ initPC (Op.rem "open" (CB.app 1))
        = nativeProto.removeEventListener initPC "open" (CB.app 1)) :=
  ⟨by decide,
    wrapEvent_transform_once "track" Nat.succ 0 7 "open" (by decide) (CB.app 1) initPC⟩

/-- C5: over every operation sequence on a freshly patched instance the
eventMap keeps at most one wrapped-callback entry per distinct application
callback (its keys stay pairwise distinct), and after the patched
remove-listener runs for the wrapped event the eventMap holds no entry for
the removed callback. -/
theorem wrapEvent_eventMap_invariant (W : String) (T : Nat → Nat) (ops : List Op) :
    (eventMapKeys (runOps W T ops)).Nodup
    ∧ ∀ (s : PCState) (cb : CB),
        mapLook ((patchProto nativeProto W).removeEventListener s W cb).eventMap cb
          = none := by
  refine ⟨runOps_eventMap_nodup W T ops, ?_⟩
  intro s cb
  show mapLook (patchedRemove nativeProto W s W cb).eventMap cb = none
  unfold patchedRemove
  cases hm : mapLook s.eventMap cb with
  | none => simpa [nativeRemove_eventMap] using hm
  | some w =>
    dsimp only
    rw [if_pos rfl]
    rw [nativeRemove_eventMap]
    exact mapLook_mapErase s.eventMap cb

/-- C6: on a freshly patched instance, under every sequence of assignments
to the single-handler property at most one single-handler registration is
active at any time — the listener list never holds more than one entry, and
it holds the wrapped form of exactly the stored handler; the getter returns
the stored handler; assigning absent clears it and leaves nothing
registered; and two successive assignments leave exactly one active
registration, for the second handler. -/
theorem wrapEvent_single_handler (W : String) (T : Nat → Nat) (vals : List (Option CB)) :
    OnInv W (runSetOn W T vals)
    ∧ (runSetOn W T vals).listeners.length ≤ 1
    ∧ (patchProto nativeProto W).getOn (runSetOn W T vals) = (runSetOn W T vals).onField
    ∧ (runSetOn W T (vals ++ [none])).onField = none
    ∧ (runSetOn W T (vals ++ [none])).listeners = []
    ∧ ∀ f g : CB,
        (runSetOn W T (vals ++ [some f, some g])).onField = some g
        ∧ ∃ u, (runSetOn W T (vals ++ [some f, some g])).listeners
            = [(W, CB.wrapped u g)] := by
  have hinv := runSetOn_OnInv W T vals
  have hlen : (runSetOn W T vals).listeners.length ≤ 1 := by
    rcases ho : (runSetOn W T vals).onField with _ | h
    · have := hinv
      unfold OnInv at this
      rw [ho] at this
      rw [this.1]
      simp
    · have := hinv
      unfold OnInv at this
      rw [ho] at this
      obtain ⟨u, hl, _⟩ := this
      rw [hl]
      simp
  have hnone : (runSetOn W T (vals ++ [none])).onField = none := by
    rw [runSetOn_append_one]
    exact patchedSetOn_onField W _ none
  have hnonel : (runSetOn W T (vals ++ [none])).listeners = [] := by
    have hinv2 := runSetOn_OnInv W T (vals ++ [none])
    unfold OnInv at hinv2
    rw [hnone] at hinv2
    exact hinv2.1
  refine ⟨hinv, hlen, rfl, hnone, hnonel, ?_⟩
  intro f g
  have hsplit : vals ++ [some f, some g] = (vals ++ [some f]) ++ [some g] := by
    simp
  have hOn : (runSetOn W T (vals ++ [some f, some g])).onField = some g := by
    rw [hsplit, runSetOn_append_one]
    exact patchedSetOn_onField W _ (some g)
  refine ⟨hOn, ?_⟩
  have hinv3 := runSetOn_OnInv W T (vals ++ [some f, some g])
  unfold OnInv at hinv3
  rw [hOn] at hinv3
  obtain ⟨u, hl, _⟩ := hinv3
  exact ⟨u, hl⟩

/-- C10: registering the same application callback twice for the wrapped
event overwrites the eventMap entry with the second wrapped callback and
registers both wrapped callbacks; one remove then unregisters only the
second one and clears the map entry, so the first registration survives, a
further remove passes through without effect, and every delivery still
invokes the callback once with the transformed event. -/
theorem wrapEvent_double_registration (W : String) (T : Nat → Nat) (f e : Nat) :
    (runOps W T [Op.add W (CB.app f), Op.add W (CB.app f)]).eventMap
      = [(CB.app f, CB.wrapped 1 (CB.app f))]
    ∧ (runOps W T [Op.add W (CB.app f), Op.add W (CB.app f)]).listeners
      = [(W, CB.wrapped 0 (CB.app f)), (W, CB.wrapped 1 (CB.app f))]
    ∧ (runOps W T [Op.add W (CB.app f), Op.add W (CB.app f), Op.rem W (CB.app f)]).listeners
      = [(W, CB.wrapped 0 (CB.app f))]
    ∧ mapLook (runOps W T [Op.add W (CB.app f), Op.add W (CB.app f),
        Op.rem W (CB.app f)]).eventMap (CB.app f) = none
    ∧ (runOps W T [Op.add W (CB.app f), Op.add W (CB.app f), Op.rem W (CB.app f),
        Op.fire W e]).calls = [(f, T e)]
    ∧ (runOps W T [Op.add W (CB.app f), Op.add W (CB.app f), Op.rem W (CB.app f),
        Op.rem W (CB.app f), Op.fire W e, Op.fire W e]).calls
      = [(f, T e), (f, T e)] := by
  refine ⟨?_, ?_, ?_, ?_, ?_, ?_⟩ <;>
    simp [runOps, stepOp, patchProto, patchedAdd, patchedRemove, nativeProto, initPC,
      mapInsert, mapLook, mapErase, hasListener, remListeners, dispatchEvent, deliver,
      invoke]

/-- C9: when the runtime context has no peer-connection constructor,
wrapPeerConnectionEvent returns at once and the context — in particular any
prototype state — is left exactly as it was. -/
theorem wrapEvent_noop_without_rtc (w : WrapWindow) (W : String) (T : Nat → Nat)
    (h : w.rtcProto = none) : wrapPeerConnectionEvent w W T = w := by
  obtain ⟨proto⟩ := w
  cases proto with
  | none => rfl
  | some p => simp at h

/-- C9 witness: the empty context is returned unchanged. -/
theorem wrapEvent_noop_without_rtc_witness :
    (WrapWindow.mk none).rtcProto = none
    ∧ wrapPeerConnectionEvent (WrapWindow.mk none) "track" Nat.succ = WrapWindow.mk none :=
  ⟨rfl, wrapEvent_noop_without_rtc (WrapWindow.mk none) "track" Nat.succ rfl⟩

/-- C7: both setters return — rather than throw — an invalid-argument Error
value naming the received type whenever the argument is not a boolean, and
the failed call leaves both process-wide flags exactly as they were. -/
theorem setters_reject_nonboolean (st : Flags) (v : JSArg)
    (h : typeofArg v ≠ "boolean") :
    disableLog st v
      = (st, SetterResult.errVal ("Argument type: " ++ typeofArg v ++ ". Please use a boolean."))
    ∧ disableWarnings st v
      = (st, SetterResult.errVal ("Argument type: " ++ typeofArg v ++ ". Please use a boolean.")) := by
  cases v with
  | boolean b => exact absurd rfl h
  | number n => exact ⟨rfl, rfl⟩
  | str s => exact ⟨rfl, rfl⟩
  | undef => exact ⟨rfl, rfl⟩
  | jsNull => exact ⟨rfl, rfl⟩
  | object => exact ⟨rfl, rfl⟩
  | function => exact ⟨rfl, rfl⟩

/-- C7 witness: a string argument is rejected by both setters with the
type-naming error and the initial flags survive untouched. -/
theorem setters_reject_nonboolean_witness :
    typeofArg (JSArg.str "x") ≠ "boolean"
    ∧ disableLog initFlags (JSArg.str "x")
      = (initFlags, SetterResult.errVal
          ("Argument type: " ++ typeofArg (JSArg.str "x") ++ ". Please use a boolean."))
    ∧ disableWarnings initFlags (JSArg.str "x")
      = (initFlags, SetterResult.errVal
          ("Argument type: " ++ typeofArg (JSArg.str "x") ++ ". Please use a boolean.")) :=
  ⟨by decide,
    (setters_reject_nonboolean initFlags (JSArg.str "x") (by decide)).1,
    (setters_reject_nonboolean initFlags (JSArg.str "x") (by decide)).2⟩

/-- C8: disableWarnings stores the logical negation of its boolean argument
(true disables warnings) and leaves the logging flag alone; deprecated emits
nothing when the stored warnings flag is off and exactly one warning of the
documented form when it is on; in particular disabling warnings silences a
subsequent deprecated call. -/
theorem warnings_negation_deprecated (st : Flags) (b : Bool) (o nm : String) :
    (disableWarnings st (JSArg.boolean b)).1.deprecationWarnings = !b
    ∧ (disableWarnings st (JSArg.boolean b)).1.logDisabled = st.logDisabled
    ∧ (st.deprecationWarnings = false → deprecated st o nm = [])
    ∧ (st.deprecationWarnings = true →
        deprecated st o nm = [o ++ " is deprecated, please use " ++ nm ++ " instead."])
    ∧ deprecated (disableWarnings st (JSArg.boolean true)).1 o nm = [] := by
  refine ⟨rfl, rfl, ?_, ?_, ?_⟩
  · intro h
    simp [deprecated, h]
  · intro h
    simp [deprecated, h]
  · simp [deprecated, disableWarnings]

/-- C8 witness: with warnings on (the initial state) one warning of the
documented form is emitted, and after disabling, none is. -/
theorem warnings_negation_deprecated_witness :
    (disableWarnings initFlags (JSArg.boolean true)).1.deprecationWarnings = !true
    ∧ initFlags.deprecationWarnings = true
    ∧ deprecated initFlags "a" "b"
      = ["a" ++ " is deprecated, please use " ++ "b" ++ " instead."]
    ∧ deprecated (disableWarnings initFlags (JSArg.boolean true)).1 "a" "b" = [] :=
  ⟨(warnings_negation_deprecated initFlags true "a" "b").1, rfl,
    (warnings_negation_deprecated initFlags true "a" "b").2.2.2.1 rfl,
    (warnings_negation_deprecated initFlags true "a" "b").2.2.2.2⟩
